import Mathlib

/-!
Shallow embedding of the bar-trivia game server (`src/backend/server.js`).

The server keeps an in-memory `Map` from 4-digit PIN strings to `Game`
objects; socket event handlers mutate that map and the game objects and
emit payloads to rooms.  Here the heap is passed explicitly: every
handler is a pure function from a registry (an insertion-ordered
association list, mirroring the JS `Map`) to a new registry together
with the emitted room payloads and the reply sent through the
acknowledgement callback.

Modelling conventions:
* JS numbers are embedded as `Int` (the arithmetic the server performs
  on them — subtraction, comparison, `Math.floor` of an exact ratio —
  is below the granularity at which IEEE-754 rounding could differ);
  `Math.floor(a / b)` on integer operands is `Int.fdiv`.
* `uuidv4()` results, socket ids and `Date.now()` readings are inputs
  of each event (the environment chooses them).
* `this.questionStartTime = null` is embedded as `0`: the only numeric
  use is `Date.now() - this.questionStartTime`, and JS coerces `null`
  to `0` in subtraction.
* A JS `TypeError` escaping a handler (the dispatcher installs no
  try/catch) is recorded in the `threw` flag of the step output,
  together with the object mutations already performed before the
  throw.
-/

/-- The four values of `game.state` (`server.js` line 39). -/
inductive GState where
  | lobby
  | question
  | answerReveal
  | ended
deriving DecidableEq, Repr

/-- A stored question (`Game.addQuestion`, `server.js` lines 58-67). -/
structure Question where
  qid : Nat
  text : String
  options : List String
  correctAnswer : Int
  timeLimit : Int
  category : String
deriving DecidableEq, Repr

/-- One entry of a team's answer log (`server.js` lines 105-111). -/
structure AnswerRec where
  questionId : Nat
  answer : Int
  isCorrect : Bool
  points : Int
  time : Int
deriving DecidableEq, Repr

/-- A team as stored in `game.teams` (`server.js` lines 44-52). -/
structure Team where
  tid : Nat
  name : String
  socketId : Nat
  score : Int
  answers : List AnswerRec
deriving DecidableEq, Repr

/-- A game session (`Game` constructor, `server.js` lines 31-42).
`teams` is an insertion-ordered association list standing for the JS
`Map`; `currentQuestionIndex` starts at `-1`. -/
structure Game where
  gid : Nat
  pin : Nat
  hostId : Nat
  hostName : String
  teams : List Team
  questions : List Question
  currentQuestionIndex : Int
  state : GState
  questionStartTime : Int
deriving DecidableEq, Repr

/-- The payload sent to `host:add-question`
(`{text, options, correctAnswer, timeLimit?, category?}`). -/
structure QuestionData where
  text : String
  options : List String
  correctAnswer : Int
  timeLimit : Option Int
  category : Option String
deriving DecidableEq, Repr

/-- Leaderboard entry (`Game.getLeaderboard`, `server.js` lines 117-125). -/
structure LbEntry where
  name : String
  score : Int
  answersCount : Nat
deriving DecidableEq, Repr

/-- The answer-stripped question view (`Game.getCurrentQuestion`,
`server.js` lines 69-84).  The structure has no `correctAnswer` field:
that is the stripping. -/
structure QuestionView where
  id : Nat
  text : String
  options : List String
  timeLimit : Int
  category : String
  questionNumber : Int
  totalQuestions : Nat
deriving DecidableEq, Repr

/-- `Math.floor(1000 + Math.random() * 9000)` (`server.js` lines 25-27):
`r` is the environment's choice of `Math.floor(Math.random() * 9000)`,
a natural number below `9000`. -/
def generateGamePin (r : Nat) : Nat :=
  1000 + r

/-- `new Game(hostId, hostName)` (`server.js` lines 31-42) with the
environment-chosen uuid `gid` and pin. -/
def newGame (gid pin hostId : Nat) (hostName : String) : Game :=
  { gid := gid, pin := pin, hostId := hostId, hostName := hostName,
    teams := [], questions := [], currentQuestionIndex := -1,
    state := GState.lobby, questionStartTime := 0 }

/-- JS `Map.set` on the team map: replace the entry under the key in
place if present (JS `Map` preserves insertion order), otherwise
append. -/
def setTeam : List Team → Team → List Team
  | [], t => [t]
  | u :: rest, t => if u.tid = t.tid then t :: rest else u :: setTeam rest t

/-- `Game.addTeam` (`server.js` lines 44-52). -/
def Game.addTeam (g : Game) (teamId : Nat) (teamName : String) (socketId : Nat) : Game :=
  { g with teams :=
      (setTeam g.teams
        { tid := teamId, name := teamName, socketId := socketId,
          score := 0, answers := [] }) }

/-- `Game.removeTeam` (`server.js` lines 54-56): JS `Map.delete`. -/
def Game.removeTeam (g : Game) (teamId : Nat) : Game :=
  { g with teams := g.teams.filter (fun t => t.tid ≠ teamId) }

/-- `Game.addQuestion` (`server.js` lines 58-67).  `question.timeLimit
|| 30` maps the absent value and the falsy number `0` to `30`;
`question.category || 'General'` maps absence and the empty string to
`"General"`. -/
def Game.addQuestion (g : Game) (qid : Nat) (qd : QuestionData) : Game :=
  { g with questions := g.questions ++
      [{ qid := qid, text := qd.text, options := qd.options,
         correctAnswer := qd.correctAnswer,
         timeLimit := match qd.timeLimit with
           | none => 30
           | some v => if v = 0 then 30 else v,
         category := match qd.category with
           | none => "General"
           | some s => if s = "" then "General" else s }] }

/-- JS indexing `this.questions[i]` with an `Int` index: `undefined`
(here `none`) outside `[0, length)`. -/
def getQ (qs : List Question) (i : Int) : Option Question :=
  if h : 0 ≤ i ∧ i.toNat < qs.length then some (qs.get ⟨i.toNat, h.2⟩)
  else none

/-- `Game.getCurrentQuestion` (`server.js` lines 69-84): the public view
of the question under the cursor, without its `correctAnswer`. -/
def Game.getCurrentQuestion (g : Game) : Option QuestionView :=
  match getQ g.questions g.currentQuestionIndex with
  | some q => some
      { id := q.qid, text := q.text, options := q.options,
        timeLimit := q.timeLimit, category := q.category,
        questionNumber := g.currentQuestionIndex + 1,
        totalQuestions := g.questions.length }
  | none => none

/-- The time bonus of `Game.submitAnswer` (`server.js` line 101):
`Math.max(0, Math.floor(50 * (1 - answerTime / (question.timeLimit *
1000))))`.  Over exact arithmetic the inner floor is the floored
integer division `(50 * (D - t)).fdiv D` with `D = timeLimit * 1000`;
the equality with the literal `⌊50 * (1 - t / D)⌋` is proved below as
`timeBonus_eq_floor`. -/
def timeBonus (timeLimit answerTime : Int) : Int :=
  max 0 ((50 * (timeLimit * 1000 - answerTime)).fdiv (timeLimit * 1000))

/-- `Game.submitAnswer` (`server.js` lines 86-115).  `now` is the
`Date.now()` reading.  Returns the mutated game and `none` for the JS
`return false` branches (unknown team, no question under the cursor),
in which case the game is returned untouched. -/
def Game.submitAnswer (g : Game) (teamId : Nat) (answer : Int) (now : Int) :
    Game × Option (Bool × Int) :=
  match g.teams.find? (fun t => t.tid = teamId) with
  | none => (g, none)
  | some team =>
    match getQ g.questions g.currentQuestionIndex with
    | none => (g, none)
    | some question =>
      let answerTime := now - g.questionStartTime
      let isCorrect := answer = question.correctAnswer
      let points : Int :=
        if isCorrect then 100 + timeBonus question.timeLimit answerTime else 0
      let team' : Team :=
        { team with
          score := team.score + points,
          answers := team.answers ++
            [{ questionId := question.qid, answer := answer,
               isCorrect := isCorrect, points := points,
               time := answerTime }] }
      ({ g with teams := setTeam g.teams team' }, some (isCorrect, points))

/-- Stable descending insertion into a score-sorted list: `x` goes
after every entry with a score `≥` its own. -/
def insertLb (x : LbEntry) : List LbEntry → List LbEntry
  | [] => [x]
  | y :: ys => if x.score ≤ y.score then y :: insertLb x ys else x :: y :: ys

/-- Stable sort by score descending, modelling the stable JS
`Array.sort((a, b) => b.score - a.score)`. -/
def sortLb : List LbEntry → List LbEntry
  | [] => []
  | x :: xs => insertLb x (sortLb xs)

/-- `Game.getLeaderboard` (`server.js` lines 117-125). -/
def Game.getLeaderboard (g : Game) : List LbEntry :=
  sortLb (g.teams.map (fun t =>
    { name := t.name, score := t.score, answersCount := t.answers.length }))

/-- `Game.nextQuestion` (`server.js` lines 127-132): increments the
cursor, sets state to `question`, refreshes the activation timestamp,
and reports whether the new cursor is still inside the list. -/
def Game.nextQuestion (g : Game) (now : Int) : Game × Bool :=
  let g' : Game :=
    { g with currentQuestionIndex := g.currentQuestionIndex + 1,
             state := GState.question, questionStartTime := now }
  (g', decide (g'.currentQuestionIndex < (g.questions.length : Int)))

/-- `Game.revealAnswer` (`server.js` lines 134-141): sets state to
`answer-reveal` FIRST, then reads `questions[currentQuestionIndex]`.
When that read yields `undefined` the subsequent `.correctAnswer`
access throws a `TypeError`; the state mutation has already happened,
which the `none` result records.  (The source mutates the state before
the read; neither the read nor the leaderboard depends on the state, so
matching on the question first with the mutation applied in both
branches is the same function.) -/
def Game.revealAnswer (g : Game) : Game × Option (Int × List LbEntry) :=
  match getQ g.questions g.currentQuestionIndex with
  | none => ({ g with state := GState.answerReveal }, none)
  | some q =>
    ({ g with state := GState.answerReveal },
     some (q.correctAnswer, Game.getLeaderboard { g with state := GState.answerReveal }))

/-- `Game.endGame` (`server.js` lines 143-149). -/
def Game.endGame (g : Game) : Game × (List LbEntry × Nat) :=
  ({ g with state := GState.ended },
   (Game.getLeaderboard { g with state := GState.ended }, g.questions.length))

/-- The process-wide `games` map (`server.js` line 22): an
insertion-ordered association list from PIN to game. -/
abbrev Registry := List (Nat × Game)

/-- `games.get(pin)`. -/
def lookupGame (reg : Registry) (pin : Nat) : Option Game :=
  (reg.find? (fun e => e.1 = pin)).map (fun e => e.2)

/-- `games.set(pin, g)`: replace in place when the key is present
(keeping its position, as the JS `Map` does), otherwise append. -/
def setGame : Registry → Nat → Game → Registry
  | [], pin, g => [(pin, g)]
  | e :: rest, pin, g =>
    if e.1 = pin then (pin, g) :: rest else e :: setGame rest pin g

/-- `games.delete(pin)`. -/
def delGame (reg : Registry) (pin : Nat) : Registry :=
  reg.filter (fun e => e.1 ≠ pin)

/-- The rooms payloads are emitted to: `game-<pin>` and `host-<pin>`. -/
inductive Room where
  | game (pin : Nat)
  | host (pin : Nat)
deriving DecidableEq, Repr

/-- The outbound broadcast payloads of `server.js`.  A `QuestionView`
argument carries `getCurrentQuestion`'s result (`none` is the JS
`null`). -/
inductive Payload where
  | teamJoined (teamId : Nat) (teamName : String) (totalTeams : Nat)
  | gameStarted (question : Option QuestionView)
  | questionNew (question : Option QuestionView)
  | gameEnded (finalLeaderboard : List LbEntry) (totalQuestions : Nat)
  | answerSubmitted (teamId : Nat) (answered : Bool)
  | answerRevealed (correctAnswer : Int) (leaderboard : List LbEntry)
  | teamLeft (teamId : Nat) (teamName : String) (totalTeams : Nat)
deriving DecidableEq, Repr

/-- The acknowledgement replies sent through each handler's callback. -/
inductive Reply where
  | createOk (gameId pin hostId : Nat)
  | joinOk (teamId : Nat) (teamName : String) (gameState : GState)
  | addQuestionOk (totalQuestions : Nat)
  | startOk
  | nextOk (ended : Bool) (question : Option QuestionView)
  | submitOk
  | revealOk (correctAnswer : Int) (leaderboard : List LbEntry)
  | leaderboardOk (leaderboard : List LbEntry)
  | err (msg : String)
deriving DecidableEq, Repr

/-- The observable outcome of processing one inbound event: the new
registry (heap), the room broadcasts in emission order, the reply sent
through the callback (`none` when no callback call was reached), and
whether the handler threw an uncaught exception. -/
structure StepOut where
  reg : Registry
  outs : List (Room × Payload)
  reply : Option Reply
  threw : Bool
deriving DecidableEq, Repr

/-- A completed step that only replies. -/
def replyOnly (reg : Registry) (r : Reply) : StepOut :=
  { reg := reg, outs := [], reply := some r, threw := false }

/-- `host:create-game` (`server.js` lines 193-210): one sample `r` of
`Math.floor(Math.random() * 9000)`, no collision retry; `games.set`
replaces any existing game under the same PIN. -/
def hostCreateGame (reg : Registry) (gid hostId : Nat) (hostName : String)
    (r : Nat) : StepOut :=
  let pin := generateGamePin r
  let g := newGame gid pin hostId hostName
  { reg := setGame reg pin g, outs := [],
    reply := some (Reply.createOk gid pin hostId), threw := false }

/-- `team:join` (`server.js` lines 213-245). -/
def teamJoin (reg : Registry) (pin : Nat) (teamName : String)
    (teamId sock : Nat) : StepOut :=
  match lookupGame reg pin with
  | none => replyOnly reg (Reply.err "Game not found")
  | some g =>
    if g.state ≠ GState.lobby then
      replyOnly reg (Reply.err "Game already started")
    else
      let g' := g.addTeam teamId teamName sock
      { reg := setGame reg pin g',
        outs := [(Room.host pin, Payload.teamJoined teamId teamName g'.teams.length)],
        reply := some (Reply.joinOk teamId teamName g'.state), threw := false }

/-- `host:add-question` (`server.js` lines 248-262): no state check. -/
def hostAddQuestion (reg : Registry) (pin qid : Nat) (qd : QuestionData) : StepOut :=
  match lookupGame reg pin with
  | none => replyOnly reg (Reply.err "Game not found")
  | some g =>
    let g' := g.addQuestion qid qd
    { reg := setGame reg pin g',
      outs := [],
      reply := some (Reply.addQuestionOk g'.questions.length), threw := false }

/-- `host:start-game` (`server.js` lines 265-286): checks only that the
game exists and has a non-empty question list — the state is NOT
checked — then calls `nextQuestion` (discarding its result) and
broadcasts `game:started` with the current view. -/
def hostStartGame (reg : Registry) (pin : Nat) (now : Int) : StepOut :=
  match lookupGame reg pin with
  | none => replyOnly reg (Reply.err "Game not found")
  | some g =>
    if g.questions.length = 0 then
      replyOnly reg (Reply.err "No questions added")
    else
      let g' := (g.nextQuestion now).1
      { reg := setGame reg pin g',
        outs := [(Room.game pin, Payload.gameStarted g'.getCurrentQuestion)],
        reply := some Reply.startOk, threw := false }

/-- `host:next-question` (`server.js` lines 289-309). -/
def hostNextQuestion (reg : Registry) (pin : Nat) (now : Int) : StepOut :=
  match lookupGame reg pin with
  | none => replyOnly reg (Reply.err "Game not found")
  | some g =>
    let step := g.nextQuestion now
    if step.2 then
      { reg := setGame reg pin step.1,
        outs := [(Room.game pin, Payload.questionNew step.1.getCurrentQuestion)],
        reply := some (Reply.nextOk false step.1.getCurrentQuestion),
        threw := false }
    else
      let fin := step.1.endGame
      { reg := setGame reg pin fin.1,
        outs := [(Room.game pin, Payload.gameEnded fin.2.1 fin.2.2)],
        reply := some (Reply.nextOk true none), threw := false }

/-- `team:submit-answer` (`server.js` lines 312-340). -/
def teamSubmitAnswer (reg : Registry) (pin teamId : Nat) (answer : Int)
    (now : Int) : StepOut :=
  match lookupGame reg pin with
  | none => replyOnly reg (Reply.err "Game not found")
  | some g =>
    if g.state ≠ GState.question then
      replyOnly reg (Reply.err "Not accepting answers")
    else
      let res := g.submitAnswer teamId answer now
      match res.2 with
      | none => replyOnly reg (Reply.err "Invalid team or question")
      | some _ =>
        { reg := setGame reg pin res.1,
          outs := [(Room.host pin, Payload.answerSubmitted teamId true)],
          reply := some Reply.submitOk, threw := false }

/-- `host:reveal-answer` (`server.js` lines 343-357): no state check.
When `revealAnswer` throws, the state mutation it already performed
stays in the heap, no broadcast happens and no reply is sent. -/
def hostRevealAnswer (reg : Registry) (pin : Nat) : StepOut :=
  match lookupGame reg pin with
  | none => replyOnly reg (Reply.err "Game not found")
  | some g =>
    let res := g.revealAnswer
    match res.2 with
    | none =>
      { reg := setGame reg pin res.1, outs := [], reply := none, threw := true }
    | some out =>
      { reg := setGame reg pin res.1,
        outs := [(Room.game pin, Payload.answerRevealed out.1 out.2)],
        reply := some (Reply.revealOk out.1 out.2), threw := false }

/-- `game:get-leaderboard` (`server.js` lines 360-372). -/
def gameGetLeaderboard (reg : Registry) (pin : Nat) : StepOut :=
  match lookupGame reg pin with
  | none => replyOnly reg (Reply.err "Game not found")
  | some g => replyOnly reg (Reply.leaderboardOk g.getLeaderboard)

/-- The team-removal loop of the `disconnect` handler (`server.js`
lines 380-389): walk the team list in insertion order, delete every
team owned by the disconnected socket, and emit `team:left` with the
map size at the moment of each deletion (`keptBefore` counts the
already-visited surviving teams). -/
def removeMatchingAux (sock pin keptBefore : Nat) :
    List Team → List Team × List (Room × Payload)
  | [] => ([], [])
  | t :: rest =>
    if t.socketId = sock then
      let res := removeMatchingAux sock pin keptBefore rest
      (res.1, (Room.host pin, Payload.teamLeft t.tid t.name (keptBefore + rest.length)) :: res.2)
    else
      let res := removeMatchingAux sock pin (keptBefore + 1) rest
      (t :: res.1, res.2)

/-- The per-game body of the `disconnect` handler (`server.js` lines
379-396): remove the socket's teams, then evict the game when it is in
`lobby` with zero teams — whether or not any team was just removed. -/
def disconnectGame (sock pin : Nat) (g : Game) :
    Option Game × List (Room × Payload) :=
  let res := removeMatchingAux sock pin 0 g.teams
  let g' : Game := { g with teams := res.1 }
  if g'.teams.length = 0 ∧ g'.state = GState.lobby then (none, res.2)
  else (some g', res.2)

/-- The full `disconnect` handler (`server.js` lines 375-397): the
`games.forEach` visits games in insertion order. -/
def onDisconnect (reg : Registry) (sock : Nat) : Registry × List (Room × Payload) :=
  match reg with
  | [] => ([], [])
  | (pin, g) :: rest =>
    let here := disconnectGame sock pin g
    let there := onDisconnect rest sock
    match here.1 with
    | none => (there.1, here.2 ++ there.2)
    | some g' => ((pin, g') :: there.1, here.2 ++ there.2)

/-- The janitor sweep (`server.js` lines 401-410): delete every game in
state `ended`. -/
def janitorSweep (reg : Registry) : Registry :=
  reg.filter (fun e => e.2.state ≠ GState.ended)

/-- One inbound event together with the environment's choices (fresh
uuids, the random PIN sample, socket ids, `Date.now()` readings). -/
inductive Ev where
  | create (gid hostId : Nat) (hostName : String) (r : Nat)
  | join (pin : Nat) (teamName : String) (teamId sock : Nat)
  | addQuestion (pin qid : Nat) (qd : QuestionData)
  | startGame (pin : Nat) (now : Int)
  | nextQuestion (pin : Nat) (now : Int)
  | submit (pin teamId : Nat) (answer : Int) (now : Int)
  | reveal (pin : Nat)
  | getLb (pin : Nat)
  | disconnect (sock : Nat)
  | janitor
deriving DecidableEq, Repr

/-- The dispatcher: process one event against the registry. -/
def stepFn (reg : Registry) : Ev → StepOut
  | Ev.create gid hostId hostName r => hostCreateGame reg gid hostId hostName r
  | Ev.join pin teamName teamId sock => teamJoin reg pin teamName teamId sock
  | Ev.addQuestion pin qid qd => hostAddQuestion reg pin qid qd
  | Ev.startGame pin now => hostStartGame reg pin now
  | Ev.nextQuestion pin now => hostNextQuestion reg pin now
  | Ev.submit pin teamId answer now => teamSubmitAnswer reg pin teamId answer now
  | Ev.reveal pin => hostRevealAnswer reg pin
  | Ev.getLb pin => gameGetLeaderboard reg pin
  | Ev.disconnect sock =>
    let res := onDisconnect reg sock
    { reg := res.1, outs := res.2, reply := none, threw := false }
  | Ev.janitor =>
    { reg := janitorSweep reg, outs := [], reply := none, threw := false }

/-- Registries reachable from the empty initial registry through
handlers that run to completion.  A handler that throws (`threw =
true`) crashes the Node process — nothing on the dispatch path catches
exceptions — so the heap it leaves behind is never observed by any
later event; such steps therefore end the run. -/
inductive Reach : Registry → Prop where
  | init : Reach []
  | step {reg : Registry} (e : Ev) (h : Reach reg)
      (hok : (stepFn reg e).threw = false) : Reach (stepFn reg e).reg


/-! ### Basic lemmas about the registry and team maps -/

/-! ### Invariant definitions, projections and concrete runs -/

/-- `team.score` equals the sum of the points of its logged answers. -/
def teamOk (t : Team) : Prop :=
  t.score = (t.answers.map AnswerRec.points).sum

/-- The per-game inductive invariant: the cursor never goes below `-1`,
it sits at `-1` exactly in the lobby, and every team's score is the sum
of its logged answer points. -/
def GameInv (g : Game) : Prop :=
  -1 ≤ g.currentQuestionIndex ∧
  (g.currentQuestionIndex = -1 ↔ g.state = GState.lobby) ∧
  ∀ t ∈ g.teams, teamOk t

/-- The registry invariant: PINs are pairwise distinct and every live
game satisfies `GameInv`. -/
def RegInv (reg : Registry) : Prop :=
  (reg.map Prod.fst).Nodup ∧ ∀ e ∈ reg, GameInv e.2

/-- The demo question of spec scenario S1. -/
def qdDemo : QuestionData :=
  { text := "2+2?", options := ["3", "4", "5", "6"], correctAnswer := 1,
    timeLimit := some 30, category := none }

/-- Host `Alex` creates a game; the PIN sample is `0`, so the PIN is
`1000`. -/
def regDemo1 : Registry := (stepFn [] (Ev.create 1 11 "Alex" 0)).reg

/-- One question added. -/
def regDemo2 : Registry := (stepFn regDemo1 (Ev.addQuestion 1000 21 qdDemo)).reg

/-- Team `Pandas` (id 5, socket 50) joins. -/
def regDemo3 : Registry := (stepFn regDemo2 (Ev.join 1000 "Pandas" 5 50)).reg

/-- The game starts at time 0: state `question`, cursor 0. -/
def regDemo4 : Registry := (stepFn regDemo3 (Ev.startGame 1000 0)).reg

/-- Team 5 submits the correct option 1 at elapsed 3000 ms. -/
def regDemo5 : Registry := (stepFn regDemo4 (Ev.submit 1000 5 1 3000)).reg

/-- The same submission is repeated. -/
def regDemo6 : Registry := (stepFn regDemo5 (Ev.submit 1000 5 1 3000)).reg

/-- `next-question` past the only question: the game ends. -/
def regDemo7 : Registry := (stepFn regDemo6 (Ev.nextQuestion 1000 4000)).reg

/-- Erase the server-private correct-answer index of a question. -/
def eraseCA (q : Question) : Question := { q with correctAnswer := 0 }

/-- The game stored under `p`, defaulting to a dummy (used only to name
concrete games in witnesses). -/
def gAt (reg : Registry) (p : Nat) : Game :=
  (lookupGame reg p).getD (newGame 0 0 0 "")

/-- Host `Hana` creates a game (PIN 1000) with two questions, then
starts it. -/
def regC5a : Registry := (stepFn [] (Ev.create 3 31 "Hana" 0)).reg

def regC5b : Registry := (stepFn regC5a (Ev.addQuestion 1000 41 qdDemo)).reg

def regC5c : Registry := (stepFn regC5b (Ev.addQuestion 1000 42 qdDemo)).reg

def regC5d : Registry := (stepFn regC5c (Ev.startGame 1000 100)).reg

/-- A question whose correct answer is the parameter `ca`. -/
def qdC6 (ca : Int) : QuestionData :=
  { text := "Q", options := ["a", "b"], correctAnswer := ca,
    timeLimit := some 30, category := none }

/-- A started game (PIN 1000, team 9) whose only question has correct
answer `ca`. -/
def regC6 (ca : Int) : Registry :=
  (stepFn (stepFn (stepFn (stepFn [] (Ev.create 7 71 "H" 0)).reg
    (Ev.addQuestion 1000 81 (qdC6 ca))).reg
    (Ev.join 1000 "T" 9 90)).reg
    (Ev.startGame 1000 0)).reg

/-- Team 9 has submitted option 0 at elapsed 1000 ms. -/
def regC6s (ca : Int) : Registry :=
  (stepFn (regC6 ca) (Ev.submit 1000 9 0 1000)).reg

/-- Host `Kai` creates a game with PIN sample 500: PIN 1500, lobby. -/
def regC9 : Registry := (stepFn [] (Ev.create 4 44 "Kai" 500)).reg

/-- The question as stored after `addQuestion 21 qdDemo`. -/
def qDemoStored : Question :=
  { qid := 21, text := "2+2?", options := ["3", "4", "5", "6"],
    correctAnswer := 1, timeLimit := 30, category := "General" }

/-- The team as stored right after joining. -/
def teamDemoStored : Team :=
  { tid := 5, name := "Pandas", socketId := 50, score := 0, answers := [] }

theorem lookupGame_nil (p : Nat) : lookupGame [] p = none := rfl

theorem lookupGame_cons (e : Nat × Game) (rest : Registry) (p : Nat) :
    lookupGame (e :: rest) p =
      if e.1 = p then some e.2 else lookupGame rest p := by
  by_cases h : e.1 = p
  · simp [lookupGame, List.find?_cons_of_pos, h]
  · simp [lookupGame, List.find?_cons_of_neg, h]

theorem setGame_cons (e : Nat × Game) (rest : Registry) (pin : Nat) (g : Game) :
    setGame (e :: rest) pin g =
      if e.1 = pin then (pin, g) :: rest else e :: setGame rest pin g := rfl

theorem lookupGame_mem {reg : Registry} {p : Nat} {g : Game}
    (h : lookupGame reg p = some g) : (p, g) ∈ reg := by
  induction reg with
  | nil => simp [lookupGame_nil] at h
  | cons e rest ih =>
    rw [lookupGame_cons] at h
    by_cases he : e.1 = p
    · rw [if_pos he] at h
      have : e = (p, g) := by
        cases e
        simp at he
        simp at h
        simp [he, h]
      simp [this]
    · rw [if_neg he] at h
      exact List.mem_cons_of_mem e (ih h)

theorem lookup_eq_none_of_not_mem_keys {reg : Registry} {p : Nat}
    (h : p ∉ reg.map Prod.fst) : lookupGame reg p = none := by
  induction reg with
  | nil => rfl
  | cons e rest ih =>
    simp at h
    rw [lookupGame_cons, if_neg (fun hc : e.1 = p => h.1 hc.symm)]
    exact ih (by simpa using h.2)

theorem lookup_setGame_self (reg : Registry) (pin : Nat) (g : Game) :
    lookupGame (setGame reg pin g) pin = some g := by
  induction reg with
  | nil => simp [setGame, lookupGame_cons, lookupGame_nil]
  | cons e rest ih =>
    rw [setGame_cons]
    by_cases he : e.1 = pin
    · rw [if_pos he, lookupGame_cons, if_pos rfl]
    · rw [if_neg he, lookupGame_cons, if_neg he]
      exact ih

theorem lookup_setGame_ne (reg : Registry) {pin p : Nat} (g : Game)
    (h : p ≠ pin) : lookupGame (setGame reg pin g) p = lookupGame reg p := by
  induction reg with
  | nil =>
    simp [setGame, lookupGame_cons, lookupGame_nil,
      if_neg (fun hc : pin = p => h hc.symm)]
  | cons e rest ih =>
    rw [setGame_cons]
    by_cases he : e.1 = pin
    · rw [if_pos he, lookupGame_cons, lookupGame_cons,
        if_neg (fun hc : pin = p => h hc.symm),
        if_neg (fun hc : e.1 = p => h (he ▸ hc).symm)]
    · rw [if_neg he, lookupGame_cons, lookupGame_cons]
      by_cases hep : e.1 = p
      · rw [if_pos hep, if_pos hep]
      · rw [if_neg hep, if_neg hep]
        exact ih

theorem mem_setGame {reg : Registry} {pin : Nat} {g : Game} {e : Nat × Game}
    (h : e ∈ setGame reg pin g) : e ∈ reg ∨ e = (pin, g) := by
  induction reg with
  | nil => simp [setGame] at h; simp [h]
  | cons a rest ih =>
    rw [setGame_cons] at h
    by_cases ha : a.1 = pin
    · rw [if_pos ha] at h
      rcases List.mem_cons.mp h with h1 | h1
      · right; exact h1
      · left; exact List.mem_cons_of_mem a h1
    · rw [if_neg ha] at h
      rcases List.mem_cons.mp h with h1 | h1
      · left; simp [h1]
      · rcases ih h1 with h2 | h2
        · left; exact List.mem_cons_of_mem a h2
        · right; exact h2

theorem keys_setGame (reg : Registry) (pin : Nat) (g : Game) :
    (setGame reg pin g).map Prod.fst =
      if pin ∈ reg.map Prod.fst then reg.map Prod.fst
      else reg.map Prod.fst ++ [pin] := by
  induction reg with
  | nil => simp [setGame]
  | cons a rest ih =>
    rw [setGame_cons]
    by_cases ha : a.1 = pin
    · rw [if_pos ha]
      have : pin ∈ (a :: rest).map Prod.fst := by simp [ha.symm]
      rw [if_pos this]
      simp [ha]
    · rw [if_neg ha]
      have hne : ¬ pin = a.1 := fun hc => ha hc.symm
      by_cases hm : pin ∈ rest.map Prod.fst
      · have : pin ∈ (a :: rest).map Prod.fst := by simp [hm]
        rw [if_pos this]
        simp [ih, hm]
      · have : pin ∉ (a :: rest).map Prod.fst := by simp [hne, hm]
        rw [if_neg this]
        simp [ih, hm]

theorem nodup_keys_setGame {reg : Registry} (pin : Nat) (g : Game)
    (h : (reg.map Prod.fst).Nodup) :
    ((setGame reg pin g).map Prod.fst).Nodup := by
  rw [keys_setGame]
  by_cases hm : pin ∈ reg.map Prod.fst
  · simpa [hm]
  · simp only [hm, if_false]
    exact List.Nodup.append h (List.nodup_singleton pin) (by simpa using hm)

theorem mem_setTeam {ts : List Team} {t0 t : Team}
    (h : t ∈ setTeam ts t0) : t ∈ ts ∨ t = t0 := by
  induction ts with
  | nil => simp [setTeam] at h; simp [h]
  | cons u rest ih =>
    by_cases hu : u.tid = t0.tid
    · rw [show setTeam (u :: rest) t0 = t0 :: rest from by simp [setTeam, hu]] at h
      rcases List.mem_cons.mp h with h1 | h1
      · right; exact h1
      · left; exact List.mem_cons_of_mem u h1
    · rw [show setTeam (u :: rest) t0 = u :: setTeam rest t0 from by simp [setTeam, hu]] at h
      rcases List.mem_cons.mp h with h1 | h1
      · left; simp [h1]
      · rcases ih h1 with h2 | h2
        · left; exact List.mem_cons_of_mem u h2
        · right; exact h2

/-! ### Lemmas about the disconnect handler and the janitor -/

theorem removeMatchingAux_subset {sock pin : Nat} {ts : List Team} {t : Team} :
    ∀ {k : Nat}, t ∈ (removeMatchingAux sock pin k ts).1 → t ∈ ts := by
  induction ts with
  | nil => intro k h; simp [removeMatchingAux] at h
  | cons u rest ih =>
    intro k h
    by_cases hu : u.socketId = sock
    · simp only [removeMatchingAux, hu, if_pos] at h
      exact List.mem_cons_of_mem u (ih h)
    · simp only [removeMatchingAux, hu, if_neg, ite_false] at h
      rcases List.mem_cons.mp h with h1 | h1
      · simp [h1]
      · exact List.mem_cons_of_mem u (ih h1)

theorem onDisconnect_nil (sock : Nat) : onDisconnect [] sock = ([], []) := rfl

theorem disconnectGame_fst (sock pin : Nat) (g : Game) :
    (disconnectGame sock pin g).1 =
      if (removeMatchingAux sock pin 0 g.teams).1.length = 0 ∧ g.state = GState.lobby
      then none
      else some { g with teams := (removeMatchingAux sock pin 0 g.teams).1 } := by
  simp only [disconnectGame]
  split
  · rfl
  · rfl

theorem onDisconnect_cons (e : Nat × Game) (rest : Registry) (sock : Nat) :
    (onDisconnect (e :: rest) sock).1 =
      if (removeMatchingAux sock e.1 0 e.2.teams).1.length = 0 ∧ e.2.state = GState.lobby
      then (onDisconnect rest sock).1
      else (e.1, { e.2 with teams := (removeMatchingAux sock e.1 0 e.2.teams).1 }) ::
             (onDisconnect rest sock).1 := by
  cases e with
  | mk pin g =>
    show (match (disconnectGame sock pin g).1 with
      | none => ((onDisconnect rest sock).1, (disconnectGame sock pin g).2 ++ (onDisconnect rest sock).2)
      | some g' => ((pin, g') :: (onDisconnect rest sock).1,
          (disconnectGame sock pin g).2 ++ (onDisconnect rest sock).2)).1 = _
    rw [disconnectGame_fst]
    by_cases hc : (removeMatchingAux sock pin 0 g.teams).1.length = 0 ∧ g.state = GState.lobby
    · rw [if_pos hc, if_pos hc]
    · rw [if_neg hc, if_neg hc]

theorem keys_onDisconnect_sublist (reg : Registry) (sock : Nat) :
    ((onDisconnect reg sock).1.map Prod.fst).Sublist (reg.map Prod.fst) := by
  induction reg with
  | nil => simp [onDisconnect_nil]
  | cons e rest ih =>
    rw [onDisconnect_cons]
    by_cases hc : (removeMatchingAux sock e.1 0 e.2.teams).1.length = 0 ∧
        e.2.state = GState.lobby
    · rw [if_pos hc]
      exact List.Sublist.trans ih (List.sublist_cons_self e.1 (rest.map Prod.fst))
    · rw [if_neg hc]
      simpa using List.Sublist.cons₂ e.1 ih

theorem mem_onDisconnect {reg : Registry} {sock : Nat} {e : Nat × Game}
    (h : e ∈ (onDisconnect reg sock).1) :
    ∃ g, (e.1, g) ∈ reg ∧
      e.2 = { g with teams := (removeMatchingAux sock e.1 0 g.teams).1 } := by
  induction reg with
  | nil => simp [onDisconnect_nil] at h
  | cons a rest ih =>
    rw [onDisconnect_cons] at h
    by_cases hc : (removeMatchingAux sock a.1 0 a.2.teams).1.length = 0 ∧
        a.2.state = GState.lobby
    · rw [if_pos hc] at h
      rcases ih h with ⟨g, hg, he⟩
      exact ⟨g, List.mem_cons_of_mem a hg, he⟩
    · rw [if_neg hc] at h
      rcases List.mem_cons.mp h with h1 | h1
      · refine ⟨a.2, ?_, ?_⟩
        · rw [h1]; simp
        · rw [h1]
      · rcases ih h1 with ⟨g, hg, he⟩
        exact ⟨g, List.mem_cons_of_mem a hg, he⟩

theorem lookup_onDisconnect {reg : Registry} {sock p : Nat} {g : Game}
    (hnd : (reg.map Prod.fst).Nodup) (h : lookupGame reg p = some g) :
    lookupGame (onDisconnect reg sock).1 p =
      if (removeMatchingAux sock p 0 g.teams).1.length = 0 ∧ g.state = GState.lobby
      then none
      else some { g with teams := (removeMatchingAux sock p 0 g.teams).1 } := by
  induction reg with
  | nil => simp [lookupGame_nil] at h
  | cons a rest ih =>
    rw [lookupGame_cons] at h
    simp only [List.map_cons, List.nodup_cons] at hnd
    by_cases ha : a.1 = p
    · rw [if_pos ha] at h
      injection h with h
      rw [onDisconnect_cons]
      by_cases hc : (removeMatchingAux sock a.1 0 a.2.teams).1.length = 0 ∧
          a.2.state = GState.lobby
      · rw [if_pos hc]
        have hkeys : p ∉ (onDisconnect rest sock).1.map Prod.fst := by
          intro hmem
          exact hnd.1 (ha ▸ (keys_onDisconnect_sublist rest sock).subset hmem)
        rw [lookup_eq_none_of_not_mem_keys hkeys, if_pos (by rw [← ha, ← h]; exact hc)]
      · rw [if_neg hc, lookupGame_cons, if_pos ha,
          if_neg (by rw [← ha, ← h]; exact hc)]
        simp [ha, h]
    · rw [if_neg ha] at h
      rw [onDisconnect_cons]
      by_cases hc : (removeMatchingAux sock a.1 0 a.2.teams).1.length = 0 ∧
          a.2.state = GState.lobby
      · rw [if_pos hc]
        exact ih hnd.2 h
      · rw [if_neg hc, lookupGame_cons, if_neg ha]
        exact ih hnd.2 h

theorem lookup_janitor {reg : Registry} {p : Nat} {g : Game}
    (hnd : (reg.map Prod.fst).Nodup) (h : lookupGame reg p = some g) :
    lookupGame (janitorSweep reg) p =
      if g.state = GState.ended then none else some g := by
  induction reg with
  | nil => simp [lookupGame_nil] at h
  | cons a rest ih =>
    rw [lookupGame_cons] at h
    simp only [List.map_cons, List.nodup_cons] at hnd
    by_cases ha : a.1 = p
    · rw [if_pos ha] at h
      injection h with h
      by_cases hs : a.2.state = GState.ended
      · have : janitorSweep (a :: rest) = janitorSweep rest := by
          simp [janitorSweep, List.filter, hs]
        rw [this, if_pos (h ▸ hs)]
        refine lookup_eq_none_of_not_mem_keys ?_
        intro hmem
        exact hnd.1 (ha ▸ ((List.filter_sublist rest).map Prod.fst).subset hmem)
      · have : janitorSweep (a :: rest) = a :: janitorSweep rest := by
          simp [janitorSweep, List.filter, hs]
        rw [this, lookupGame_cons, if_pos ha, if_neg (h ▸ hs), h]
    · rw [if_neg ha] at h
      by_cases hs : a.2.state = GState.ended
      · have : janitorSweep (a :: rest) = janitorSweep rest := by
          simp [janitorSweep, List.filter, hs]
        rw [this]
        exact ih hnd.2 h
      · have : janitorSweep (a :: rest) = a :: janitorSweep rest := by
          simp [janitorSweep, List.filter, hs]
        rw [this, lookupGame_cons, if_neg ha]
        exact ih hnd.2 h

/-! ### The inductive invariant of reachable registries -/

theorem getQ_some_bounds {qs : List Question} {i : Int} {q : Question}
    (h : getQ qs i = some q) : 0 ≤ i ∧ i.toNat < qs.length := by
  by_cases hb : 0 ≤ i ∧ i.toNat < qs.length
  · exact hb
  · simp [getQ, hb] at h

theorem gameInv_newGame (gid pin hostId : Nat) (hostName : String) :
    GameInv (newGame gid pin hostId hostName) := by
  refine ⟨le_refl (-1 : Int), ⟨fun _ => rfl, fun _ => rfl⟩, ?_⟩
  intro t ht
  exact absurd ht (List.not_mem_nil t)

theorem gameInv_addTeam {g : Game} (hg : GameInv g) (teamId : Nat)
    (nm : String) (sock : Nat) : GameInv (g.addTeam teamId nm sock) := by
  refine ⟨hg.1, hg.2.1, ?_⟩
  intro t ht
  rcases mem_setTeam ht with h | h
  · exact hg.2.2 t h
  · rw [h]; rfl

theorem gameInv_addQuestion {g : Game} (hg : GameInv g) (qid : Nat)
    (qd : QuestionData) : GameInv (g.addQuestion qid qd) :=
  ⟨hg.1, hg.2.1, hg.2.2⟩

theorem gameInv_nextQuestion {g : Game} (hg : GameInv g) (now : Int) :
    GameInv (g.nextQuestion now).1 := by
  have h1 := hg.1
  refine ⟨?_, ?_, hg.2.2⟩
  · show -1 ≤ g.currentQuestionIndex + 1
    omega
  · show g.currentQuestionIndex + 1 = -1 ↔ GState.question = GState.lobby
    constructor
    · intro h; omega
    · intro h; cases h

theorem gameInv_endGame {g : Game} (h0 : 0 ≤ g.currentQuestionIndex)
    (hteams : ∀ t ∈ g.teams, teamOk t) : GameInv g.endGame.1 := by
  refine ⟨by show -1 ≤ g.currentQuestionIndex; omega, ?_, hteams⟩
  show g.currentQuestionIndex = -1 ↔ GState.ended = GState.lobby
  constructor
  · intro h; omega
  · intro h; cases h

theorem submitAnswer_inv {g : Game} (teamId : Nat) (answer now : Int)
    (hg : GameInv g) : GameInv (g.submitAnswer teamId answer now).1 := by
  unfold Game.submitAnswer
  cases hf : g.teams.find? (fun t => t.tid = teamId) with
  | none => exact hg
  | some team =>
    cases hq : getQ g.questions g.currentQuestionIndex with
    | none => exact hg
    | some question =>
      refine ⟨hg.1, hg.2.1, ?_⟩
      intro t ht
      simp only at ht
      rcases mem_setTeam ht with h | h
      · exact hg.2.2 t h
      · rw [h]
        have hmem : team ∈ g.teams := List.mem_of_find?_eq_some hf
        have hok := hg.2.2 team hmem
        show team.score + _ = _
        simp [teamOk] at hok
        simp [List.map_append, hok]

theorem submitAnswer_fields (g : Game) (teamId : Nat) (answer now : Int) :
    (g.submitAnswer teamId answer now).1.currentQuestionIndex = g.currentQuestionIndex ∧
    (g.submitAnswer teamId answer now).1.state = g.state ∧
    (g.submitAnswer teamId answer now).1.questions = g.questions ∧
    (g.submitAnswer teamId answer now).1.questionStartTime = g.questionStartTime := by
  unfold Game.submitAnswer
  cases hf : g.teams.find? (fun t => t.tid = teamId) with
  | none => exact ⟨rfl, rfl, rfl, rfl⟩
  | some team =>
    cases hq : getQ g.questions g.currentQuestionIndex with
    | none => exact ⟨rfl, rfl, rfl, rfl⟩
    | some question => exact ⟨rfl, rfl, rfl, rfl⟩

theorem gameInv_reveal_ok {g : Game} {out : Int × List LbEntry}
    (hg : GameInv g) (h : g.revealAnswer.2 = some out) :
    GameInv g.revealAnswer.1 := by
  unfold Game.revealAnswer at h ⊢
  cases hq : getQ g.questions g.currentQuestionIndex with
  | none => rw [hq] at h; cases h
  | some q =>
    have h0 : 0 ≤ g.currentQuestionIndex := (getQ_some_bounds hq).1
    refine ⟨hg.1, ?_, hg.2.2⟩
    show g.currentQuestionIndex = -1 ↔ GState.answerReveal = GState.lobby
    constructor
    · intro hcc; omega
    · intro hcc; cases hcc

theorem regInv_setGame {reg : Registry} {pin : Nat} {g : Game}
    (hinv : RegInv reg) (hg : GameInv g) : RegInv (setGame reg pin g) := by
  refine ⟨nodup_keys_setGame pin g hinv.1, ?_⟩
  intro e he
  rcases mem_setGame he with h | h
  · exact hinv.2 e h
  · rw [h]; exact hg

/-- Every handler that runs to completion preserves the registry
invariant. -/
theorem regInv_step {reg : Registry} (e : Ev) (hinv : RegInv reg)
    (hok : (stepFn reg e).threw = false) : RegInv (stepFn reg e).reg := by
  cases e with
  | create gid hostId hostName r =>
    exact regInv_setGame hinv (gameInv_newGame gid (generateGamePin r) hostId hostName)
  | join pin teamName teamId sock =>
    simp only [stepFn, teamJoin]
    split
    · exact hinv
    · rename_i g hlk
      split
      · exact hinv
      · exact regInv_setGame hinv
          (gameInv_addTeam (hinv.2 _ (lookupGame_mem hlk)) teamId teamName sock)
  | addQuestion pin qid qd =>
    simp only [stepFn, hostAddQuestion]
    split
    · exact hinv
    · rename_i g hlk
      exact regInv_setGame hinv
        (gameInv_addQuestion (hinv.2 _ (lookupGame_mem hlk)) qid qd)
  | startGame pin now =>
    simp only [stepFn, hostStartGame]
    split
    · exact hinv
    · rename_i g hlk
      split
      · exact hinv
      · exact regInv_setGame hinv
          (gameInv_nextQuestion (hinv.2 _ (lookupGame_mem hlk)) now)
  | nextQuestion pin now =>
    simp only [stepFn, hostNextQuestion]
    split
    · exact hinv
    · rename_i g hlk
      have hg : GameInv g := hinv.2 _ (lookupGame_mem hlk)
      split
      · exact regInv_setGame hinv (gameInv_nextQuestion hg now)
      · refine regInv_setGame hinv (gameInv_endGame ?_ ?_)
        · show (0 : Int) ≤ g.currentQuestionIndex + 1
          have := hg.1
          omega
        · exact hg.2.2
  | submit pin teamId answer now =>
    simp only [stepFn, teamSubmitAnswer]
    split
    · exact hinv
    · rename_i g hlk
      split
      · exact hinv
      · split
        · exact hinv
        · exact regInv_setGame hinv
            (submitAnswer_inv teamId answer now (hinv.2 _ (lookupGame_mem hlk)))
  | reveal pin =>
    simp only [stepFn, hostRevealAnswer] at hok ⊢
    split
    · exact hinv
    · rename_i g hlk
      split
      · rename_i hres
        simp only [hlk, hres] at hok
        exact absurd hok (by decide)
      · rename_i out hres
        exact regInv_setGame hinv
          (gameInv_reveal_ok (hinv.2 _ (lookupGame_mem hlk)) hres)
  | getLb pin =>
    simp only [stepFn, gameGetLeaderboard]
    split
    · exact hinv
    · exact hinv
  | disconnect sock =>
    refine ⟨List.Nodup.sublist (keys_onDisconnect_sublist reg sock) hinv.1, ?_⟩
    intro e he
    rcases mem_onDisconnect he with ⟨g0, hg0, hEq⟩
    have hg := hinv.2 _ hg0
    rw [hEq]
    refine ⟨hg.1, hg.2.1, ?_⟩
    intro t ht
    exact hg.2.2 t (removeMatchingAux_subset ht)
  | janitor =>
    refine ⟨?_, ?_⟩
    · exact List.Nodup.sublist ((List.filter_sublist reg).map Prod.fst) hinv.1
    · intro e he
      exact hinv.2 e (List.mem_of_mem_filter he)

/-- Every reachable registry satisfies the invariant. -/
theorem regInv_reach {reg : Registry} (h : Reach reg) : RegInv reg := by
  induction h with
  | init =>
    exact ⟨List.nodup_nil, fun e he => absurd he (List.not_mem_nil e)⟩
  | step e h hok ih => exact regInv_step e ih hok

/-! ### Characterization lemmas for single operations -/

/-- The exact-arithmetic floor of the source's bonus expression equals
the floored integer division used in `timeBonus`. -/
theorem timeBonus_eq_floor {L : Int} (t : Int) (hL : 0 < L) :
    timeBonus L t = max 0 ⌊(50 : ℚ) * (1 - (t : ℚ) / ((L : ℚ) * 1000))⌋ := by
  have hD : (0 : Int) < L * 1000 := by positivity
  have hDq : ((L : ℚ) * 1000) ≠ 0 := by
    have h0 : (0 : ℚ) < (L : ℚ) := by exact_mod_cast hL
    positivity
  have h1 : (50 : ℚ) * (1 - (t : ℚ) / ((L : ℚ) * 1000)) =
      ((50 * (L * 1000 - t) : Int) : ℚ) / (((L * 1000 : Int)) : ℚ) := by
    push_cast
    field_simp
  rw [timeBonus, h1, Int.fdiv_eq_ediv _ (le_of_lt hD)]
  have h2 : (((L * 1000 : Int)) : ℚ) = (((L * 1000 : Int).toNat : ℕ) : ℚ) := by
    exact_mod_cast (congrArg (fun z : Int => (z : ℚ)) (Int.toNat_of_nonneg hD.le)).symm
  rw [h2, Rat.floor_intCast_div_natCast]
  rw [Int.toNat_of_nonneg hD.le]

/-- A late correct submission still gets no bonus but no penalty. -/
theorem timeBonus_late {L t : Int} (hL : 0 < L) (ht : L * 1000 ≤ t) :
    timeBonus L t = 0 := by
  rw [timeBonus_eq_floor t hL]
  have hD : (0 : ℚ) < (L : ℚ) * 1000 := by
    have h0 : (0 : ℚ) < (L : ℚ) := by exact_mod_cast hL
    positivity
  have hratio : (1 : ℚ) ≤ (t : ℚ) / ((L : ℚ) * 1000) := by
    rw [le_div_iff₀ hD]
    have : ((L * 1000 : Int) : ℚ) ≤ ((t : Int) : ℚ) := by exact_mod_cast ht
    push_cast at this
    linarith
  have hexpr : (50 : ℚ) * (1 - (t : ℚ) / ((L : ℚ) * 1000)) ≤ 0 := by nlinarith
  have hfl : ⌊(50 : ℚ) * (1 - (t : ℚ) / ((L : ℚ) * 1000))⌋ ≤ 0 :=
    Int.floor_nonpos hexpr
  exact max_eq_left hfl

theorem submitAnswer_failure {g : Game} {teamId : Nat} {answer now : Int}
    (h : g.teams.find? (fun t => t.tid = teamId) = none ∨
         getQ g.questions g.currentQuestionIndex = none) :
    g.submitAnswer teamId answer now = (g, none) := by
  unfold Game.submitAnswer
  rcases h with h | h
  · rw [h]
  · cases hf : g.teams.find? (fun t => t.tid = teamId) with
    | none => rfl
    | some team => rw [h]

theorem submitAnswer_success {g : Game} {teamId : Nat} {answer now : Int}
    {team : Team} {q : Question}
    (hf : g.teams.find? (fun t => t.tid = teamId) = some team)
    (hq : getQ g.questions g.currentQuestionIndex = some q) :
    g.submitAnswer teamId answer now =
      ({ g with teams :=
          (setTeam g.teams
            { team with
              score := team.score +
                (if answer = q.correctAnswer
                 then 100 + timeBonus q.timeLimit (now - g.questionStartTime)
                 else 0),
              answers := team.answers ++
                [{ questionId := q.qid, answer := answer,
                   isCorrect := decide (answer = q.correctAnswer),
                   points :=
                     (if answer = q.correctAnswer
                      then 100 + timeBonus q.timeLimit (now - g.questionStartTime)
                      else 0),
                   time := now - g.questionStartTime }] }) },
       some (decide (answer = q.correctAnswer),
         if answer = q.correctAnswer
         then 100 + timeBonus q.timeLimit (now - g.questionStartTime)
         else 0)) := by
  unfold Game.submitAnswer
  rw [hf, hq]

theorem revealAnswer_fst (g : Game) :
    g.revealAnswer.1 = { g with state := GState.answerReveal } := by
  unfold Game.revealAnswer
  cases hq : getQ g.questions g.currentQuestionIndex with
  | none => rfl
  | some q => rfl

theorem revealAnswer_snd_none {g : Game}
    (h : getQ g.questions g.currentQuestionIndex = none) :
    g.revealAnswer.2 = none := by
  unfold Game.revealAnswer
  rw [h]

theorem revealAnswer_snd_some {g : Game} {q : Question}
    (h : getQ g.questions g.currentQuestionIndex = some q) :
    g.revealAnswer.2 =
      some (q.correctAnswer,
        Game.getLeaderboard { g with state := GState.answerReveal }) := by
  unfold Game.revealAnswer
  rw [h]

theorem getQ_zero (qs : List Question) : getQ qs 0 = qs.head? := by
  cases qs with
  | nil => rfl
  | cons q rest =>
    have hb : (0 : Int) ≤ 0 ∧ (0 : Int).toNat < (q :: rest).length := by
      constructor
      · exact le_refl 0
      · show 0 < rest.length + 1
        omega
    rw [getQ, dif_pos hb]
    rfl

/-- Teams of the game found at `p` after a `setGame` at `pin` are teams
of the game previously at `p`, provided the written game's teams are
(when `pin = p`). -/
theorem teams_sub_of_lookup_setGame {reg : Registry} {pin p : Nat}
    {g g2 g' : Game}
    (hlk : lookupGame reg p = some g)
    (h : lookupGame (setGame reg pin g2) p = some g')
    (hsub : pin = p → ∀ t ∈ g2.teams, t ∈ g.teams) :
    ∀ t ∈ g'.teams, t ∈ g.teams := by
  by_cases hp : pin = p
  · subst hp
    rw [lookup_setGame_self] at h
    injection h with h
    rw [← h]
    exact hsub rfl
  · rw [lookup_setGame_ne _ _ (fun hc => hp hc.symm), hlk] at h
    injection h with h
    rw [← h]
    exact fun t ht => ht

/-! ### Registry effect of each handler -/

theorem teamJoin_reg_eq (reg : Registry) (pin : Nat) (nm : String) (tid sock : Nat) :
    (teamJoin reg pin nm tid sock).reg = reg ∨
    ∃ g2, lookupGame reg pin = some g2 ∧ g2.state = GState.lobby ∧
      (teamJoin reg pin nm tid sock).reg = setGame reg pin (g2.addTeam tid nm sock) := by
  unfold teamJoin
  split
  · left; rfl
  · rename_i g2 hlk2
    split
    · left; rfl
    · rename_i hs2
      exact Or.inr ⟨g2, hlk2, not_not.mp hs2, rfl⟩

theorem hostAddQuestion_reg_eq (reg : Registry) (pin qid : Nat) (qd : QuestionData) :
    (hostAddQuestion reg pin qid qd).reg = reg ∨
    ∃ g2, lookupGame reg pin = some g2 ∧
      (hostAddQuestion reg pin qid qd).reg = setGame reg pin (g2.addQuestion qid qd) := by
  unfold hostAddQuestion
  split
  · left; rfl
  · rename_i g2 hlk2
    exact Or.inr ⟨g2, hlk2, rfl⟩

theorem hostStartGame_reg_eq (reg : Registry) (pin : Nat) (now : Int) :
    (hostStartGame reg pin now).reg = reg ∨
    ∃ g2, lookupGame reg pin = some g2 ∧
      (hostStartGame reg pin now).reg = setGame reg pin (g2.nextQuestion now).1 := by
  unfold hostStartGame
  split
  · left; rfl
  · rename_i g2 hlk2
    split
    · left; rfl
    · exact Or.inr ⟨g2, hlk2, rfl⟩

theorem hostNextQuestion_reg_eq (reg : Registry) (pin : Nat) (now : Int) :
    (hostNextQuestion reg pin now).reg = reg ∨
    ∃ g2, lookupGame reg pin = some g2 ∧
      ((hostNextQuestion reg pin now).reg = setGame reg pin (g2.nextQuestion now).1 ∨
       (hostNextQuestion reg pin now).reg =
         setGame reg pin (g2.nextQuestion now).1.endGame.1) := by
  simp only [hostNextQuestion]
  split
  · left; rfl
  · rename_i g2 hlk2
    split
    · exact Or.inr ⟨g2, hlk2, Or.inl rfl⟩
    · exact Or.inr ⟨g2, hlk2, Or.inr rfl⟩

theorem teamSubmitAnswer_reg_eq (reg : Registry) (pin tid : Nat) (answer now : Int) :
    (teamSubmitAnswer reg pin tid answer now).reg = reg ∨
    ∃ g2, lookupGame reg pin = some g2 ∧ g2.state = GState.question ∧
      (teamSubmitAnswer reg pin tid answer now).reg =
        setGame reg pin (g2.submitAnswer tid answer now).1 := by
  simp only [teamSubmitAnswer]
  split
  · left; rfl
  · rename_i g2 hlk2
    split
    · left; rfl
    · rename_i hs2
      split
      · left; rfl
      · exact Or.inr ⟨g2, hlk2, not_not.mp hs2, rfl⟩

theorem hostRevealAnswer_reg_eq (reg : Registry) (pin : Nat) :
    (hostRevealAnswer reg pin).reg = reg ∨
    ∃ g2, lookupGame reg pin = some g2 ∧
      (hostRevealAnswer reg pin).reg =
        setGame reg pin { g2 with state := GState.answerReveal } := by
  simp only [hostRevealAnswer]
  split
  · left; rfl
  · rename_i g2 hlk2
    split
    · refine Or.inr ⟨g2, hlk2, ?_⟩
      show setGame reg pin g2.revealAnswer.1 = _
      rw [revealAnswer_fst]
    · refine Or.inr ⟨g2, hlk2, ?_⟩
      show setGame reg pin g2.revealAnswer.1 = _
      rw [revealAnswer_fst]

theorem gameGetLeaderboard_reg_eq (reg : Registry) (pin : Nat) :
    (gameGetLeaderboard reg pin).reg = reg := by
  unfold gameGetLeaderboard
  split
  · rfl
  · rfl

/-! ### Dependence on the correct-answer index -/

theorem map_eq_get :
    ∀ {qs qs2 : List Question}, qs.map eraseCA = qs2.map eraseCA →
      ∀ (n : Nat) (h1 : n < qs.length) (h2 : n < qs2.length),
        eraseCA (qs.get ⟨n, h1⟩) = eraseCA (qs2.get ⟨n, h2⟩) := by
  intro qs
  induction qs with
  | nil =>
    intro qs2 h n h1 h2
    simp at h1
  | cons q rest ih =>
    intro qs2 h n h1 h2
    cases qs2 with
    | nil => simp at h
    | cons q2 rest2 =>
      simp only [List.map_cons, List.cons.injEq] at h
      cases n with
      | zero => exact h.1
      | succ m =>
        exact ih h.2 m (by simpa using h1) (by simpa using h2)

theorem getQ_congr_eraseCA {qs qs2 : List Question}
    (h : qs.map eraseCA = qs2.map eraseCA) (i : Int) :
    (getQ qs i = none ∧ getQ qs2 i = none) ∨
    (∃ q q2, getQ qs i = some q ∧ getQ qs2 i = some q2 ∧ eraseCA q = eraseCA q2) := by
  have hlen : qs.length = qs2.length := by
    have := congrArg List.length h
    simpa using this
  by_cases hb : 0 ≤ i ∧ i.toNat < qs.length
  · right
    refine ⟨qs.get ⟨i.toNat, hb.2⟩, qs2.get ⟨i.toNat, hlen ▸ hb.2⟩, ?_, ?_, ?_⟩
    · rw [getQ, dif_pos hb]
    · rw [getQ, dif_pos ⟨hb.1, hlen ▸ hb.2⟩]
    · exact map_eq_get h i.toNat hb.2 (hlen ▸ hb.2)
  · left
    constructor
    · rw [getQ, dif_neg hb]
    · rw [getQ, dif_neg (by rw [← hlen]; exact hb)]

theorem eraseCA_fields {q q2 : Question} (h : eraseCA q = eraseCA q2) :
    q.qid = q2.qid ∧ q.text = q2.text ∧ q.options = q2.options ∧
    q.timeLimit = q2.timeLimit ∧ q.category = q2.category := by
  cases q
  cases q2
  simp [eraseCA, Question.mk.injEq] at h
  exact ⟨h.1, h.2.1, h.2.2.1, h.2.2.2.1, h.2.2.2.2⟩

/-! ### The claims -/

/-- C1: the claim states first-submission-wins: a second `submitAnswer`
from the same team for the same question returns the prior result and
does not mutate score or answer log.  The code has no such guard: in
the run below team 5 submits the correct option (worth 145 points at
elapsed 3000 ms of a 30 s question) twice for the same question; after
the first call its score is 145 with one log entry, after the second
the score is 290 with two entries, and the second call replies plain
success — the accumulation the spec itself flags as unintended in its
design notes. -/
theorem c1_resubmission_accumulates :
    ((lookupGame regDemo5 1000).map
        (fun g => g.teams.map (fun t => (t.score, t.answers.length))) =
      some [((145 : Int), 1)]) ∧
    ((lookupGame regDemo6 1000).map
        (fun g => g.teams.map (fun t => (t.score, t.answers.length))) =
      some [((290 : Int), 2)]) ∧
    (stepFn regDemo5 (Ev.submit 1000 5 1 3000)).reply = some Reply.submitOk := by
  decide

/-- C2 counterexample: two creations that draw the same random sample
get the same PIN; the second succeeds (there is no retry and no
`PinExhausted`) and its `games.set` silently replaces the first
session: afterwards the registry holds only the session with `gid = 2`.
This falsifies "creation ... retrying on collision ... never silently
replaces an existing session under the same PIN". -/
theorem c2_counterexample :
    lookupGame regDemo1 1000 = some (newGame 1 1000 11 "Alex") ∧
    (stepFn regDemo1 (Ev.create 2 22 "Brook" 0)).reply =
      some (Reply.createOk 2 1000 22) ∧
    (stepFn regDemo1 (Ev.create 2 22 "Brook" 0)).reg =
      [(1000, newGame 2 1000 22 "Brook")] := by
  decide

/-- C2 amended: PINs of distinct live sessions do differ (the registry
is PIN-keyed, and every reachable registry has pairwise-distinct keys),
and the PIN is a single uniform sample from `[1000, 9999]`; but
creation performs no collision retry and cannot fail `PinExhausted` —
it always replies success, and its insertion overwrites any existing
session under the sampled PIN. -/
theorem c2_amended :
    (∀ reg, Reach reg → (reg.map Prod.fst).Nodup) ∧
    (∀ r : Nat, r < 9000 → 1000 ≤ generateGamePin r ∧ generateGamePin r ≤ 9999) ∧
    (∀ (reg : Registry) (gid hostId : Nat) (hostName : String) (r : Nat),
       (hostCreateGame reg gid hostId hostName r).reply =
         some (Reply.createOk gid (generateGamePin r) hostId) ∧
       (hostCreateGame reg gid hostId hostName r).threw = false ∧
       lookupGame (hostCreateGame reg gid hostId hostName r).reg (generateGamePin r) =
         some (newGame gid (generateGamePin r) hostId hostName)) := by
  refine ⟨?_, ?_, ?_⟩
  · intro reg hreach
    exact (regInv_reach hreach).1
  · intro r hr
    unfold generateGamePin
    omega
  · intro reg gid hostId hostName r
    exact ⟨rfl, rfl, lookup_setGame_self reg (generateGamePin r)
      (newGame gid (generateGamePin r) hostId hostName)⟩

/-- C2 amended, witnessed at the one-step registry `regDemo1` and the
sample 4217. -/
theorem c2_amended_witness :
    (regDemo1.map Prod.fst).Nodup ∧
    (1000 ≤ generateGamePin 4217 ∧ generateGamePin 4217 ≤ 9999) ∧
    lookupGame (hostCreateGame [] 1 11 "Alex" 0).reg (generateGamePin 0) =
      some (newGame 1 (generateGamePin 0) 11 "Alex") :=
  ⟨c2_amended.1 regDemo1 (Reach.step (Ev.create 1 11 "Alex" 0) Reach.init rfl),
   c2_amended.2.1 4217 (by decide),
   (c2_amended.2.2 [] 1 11 "Alex" 0).2.2⟩

/-- C3: while a question with time limit `L` is current, an incorrect
option awards 0 points and a correct one awards
`100 + max 0 ⌊50 * (1 - t / (L·1000))⌋` where `t` is the elapsed time;
a correct submission at or past `t = L·1000` awards exactly 100; and on
every reachable registry each team's cumulative score is the sum of the
points of its logged answers. -/
theorem c3_scoring :
    (∀ (g : Game) (teamId : Nat) (answer now : Int) (team : Team) (q : Question),
       g.teams.find? (fun t => t.tid = teamId) = some team →
       getQ g.questions g.currentQuestionIndex = some q →
       0 < q.timeLimit →
       ((g.submitAnswer teamId answer now).2 =
          some (decide (answer = q.correctAnswer),
            if answer = q.correctAnswer
            then 100 + max 0 ⌊(50 : ℚ) *
                   (1 - ((now - g.questionStartTime : Int) : ℚ) /
                        ((q.timeLimit : ℚ) * 1000))⌋
            else 0) ∧
        (answer = q.correctAnswer →
         q.timeLimit * 1000 ≤ now - g.questionStartTime →
         (g.submitAnswer teamId answer now).2 = some (true, 100)))) ∧
    (∀ reg, Reach reg → ∀ p g, lookupGame reg p = some g →
       ∀ t ∈ g.teams, t.score = (t.answers.map AnswerRec.points).sum) := by
  constructor
  · intro g teamId answer now team q hf hq hL
    have hs := @submitAnswer_success g teamId answer now team q hf hq
    constructor
    · rw [hs, timeBonus_eq_floor (now - g.questionStartTime) hL]
    · intro hca ht
      rw [hs]
      simp only [if_pos hca, timeBonus_late hL ht, hca]
      simp
  · intro reg hreach p g hlk t ht
    exact ((regInv_reach hreach).2 _ (lookupGame_mem hlk)).2.2 t ht

/-- C3, witnessed on the demo run: team 5's correct submission at
elapsed 3000 ms of the 30-second demo question, and the score-sum
invariant at the game reached after that submission. -/
theorem c3_scoring_witness :
    ((gAt regDemo4 1000).submitAnswer 5 1 3000).2 =
      some (decide ((1 : Int) = qDemoStored.correctAnswer),
        if (1 : Int) = qDemoStored.correctAnswer
        then 100 + max 0 ⌊(50 : ℚ) *
               (1 - ((3000 - (gAt regDemo4 1000).questionStartTime : Int) : ℚ) /
                    ((qDemoStored.timeLimit : ℚ) * 1000))⌋
        else 0) ∧
    ((gAt regDemo5 1000).teams.getD 0 teamDemoStored).score =
      (((gAt regDemo5 1000).teams.getD 0 teamDemoStored).answers.map
        AnswerRec.points).sum :=
  ⟨(c3_scoring.1 (gAt regDemo4 1000) 5 1 3000 teamDemoStored qDemoStored
      (by decide) (by decide) (by decide)).1,
   c3_scoring.2 regDemo5
     (Reach.step (Ev.submit 1000 5 1 3000)
       (Reach.step (Ev.startGame 1000 0)
         (Reach.step (Ev.join 1000 "Pandas" 5 50)
           (Reach.step (Ev.addQuestion 1000 21 qdDemo)
             (Reach.step (Ev.create 1 11 "Alex" 0) Reach.init rfl)
             rfl)
           rfl)
         rfl)
       rfl)
     1000 (gAt regDemo5 1000) (by decide)
     ((gAt regDemo5 1000).teams.getD 0 teamDemoStored) (by decide)⟩

/-- C4 counterexample: the demo run ends its game, then the host sends
`start-game` again: the handler checks only that questions exist — not
the state — so the ended session's state mutates back to `question`,
refuting "ended is terminal: no subsequent operation mutates the
session's state". -/
theorem c4_counterexample :
    (lookupGame regDemo7 1000).map (fun g => g.state) = some GState.ended ∧
    (stepFn regDemo7 (Ev.startGame 1000 5000)).reply = some Reply.startOk ∧
    (lookupGame (stepFn regDemo7 (Ev.startGame 1000 5000)).reg 1000).map
      (fun g => g.state) = some GState.question := by
  decide

/-- C4 amended: on a session in state `ended`, `team:join` and
`team:submit-answer` are rejected with an error reply and leave the
registry untouched, and no single event adds a team to the session or
alters a surviving team's record (score and answer log included) — but
the state itself is not terminal: `host:start-game`, `host:next-question`
and `host:reveal-answer` still mutate the session (see the
counterexample). -/
theorem c4_amended :
    ∀ (reg : Registry) (p : Nat) (g : Game) (e : Ev),
      (reg.map Prod.fst).Nodup →
      lookupGame reg p = some g →
      g.state = GState.ended →
      ((∀ g', lookupGame (stepFn reg e).reg p = some g' →
          ∀ t ∈ g'.teams, t ∈ g.teams) ∧
       (∀ (teamName : String) (teamId sock : Nat),
          stepFn reg (Ev.join p teamName teamId sock) =
            replyOnly reg (Reply.err "Game already started")) ∧
       (∀ (teamId : Nat) (answer now : Int),
          stepFn reg (Ev.submit p teamId answer now) =
            replyOnly reg (Reply.err "Not accepting answers"))) := by
  intro reg p g e hnd hlk hst
  have hNotLobby : g.state ≠ GState.lobby := by rw [hst]; decide
  have hNotQuestion : g.state ≠ GState.question := by rw [hst]; decide
  refine ⟨?_, ?_, ?_⟩
  · intro g' hlg' t ht
    cases e with
    | create gid hostId hostName r =>
      exact teams_sub_of_lookup_setGame hlk hlg'
        (fun hp t0 ht0 => absurd ht0 (List.not_mem_nil t0)) t ht
    | join pin2 nm tid sock =>
      rcases teamJoin_reg_eq reg pin2 nm tid sock with hreg | ⟨g2, hlk2, hs2, hreg⟩
      · rw [show (stepFn reg (Ev.join pin2 nm tid sock)).reg =
            (teamJoin reg pin2 nm tid sock).reg from rfl, hreg, hlk] at hlg'
        injection hlg' with hlg'
        rw [← hlg'] at ht
        exact ht
      · rw [show (stepFn reg (Ev.join pin2 nm tid sock)).reg =
            (teamJoin reg pin2 nm tid sock).reg from rfl, hreg] at hlg'
        refine teams_sub_of_lookup_setGame hlk hlg' ?_ t ht
        intro hp
        exfalso
        rw [hp, hlk] at hlk2
        injection hlk2 with hlk2
        rw [← hlk2] at hs2
        rw [hst] at hs2
        cases hs2
    | addQuestion pin2 qid qd =>
      rcases hostAddQuestion_reg_eq reg pin2 qid qd with hreg | ⟨g2, hlk2, hreg⟩
      · rw [show (stepFn reg (Ev.addQuestion pin2 qid qd)).reg =
            (hostAddQuestion reg pin2 qid qd).reg from rfl, hreg, hlk] at hlg'
        injection hlg' with hlg'
        rw [← hlg'] at ht
        exact ht
      · rw [show (stepFn reg (Ev.addQuestion pin2 qid qd)).reg =
            (hostAddQuestion reg pin2 qid qd).reg from rfl, hreg] at hlg'
        refine teams_sub_of_lookup_setGame hlk hlg' ?_ t ht
        intro hp
        rw [hp, hlk] at hlk2
        injection hlk2 with hlk2
        rw [← hlk2]
        exact fun t0 ht0 => ht0
    | startGame pin2 now =>
      rcases hostStartGame_reg_eq reg pin2 now with hreg | ⟨g2, hlk2, hreg⟩
      · rw [show (stepFn reg (Ev.startGame pin2 now)).reg =
            (hostStartGame reg pin2 now).reg from rfl, hreg, hlk] at hlg'
        injection hlg' with hlg'
        rw [← hlg'] at ht
        exact ht
      · rw [show (stepFn reg (Ev.startGame pin2 now)).reg =
            (hostStartGame reg pin2 now).reg from rfl, hreg] at hlg'
        refine teams_sub_of_lookup_setGame hlk hlg' ?_ t ht
        intro hp
        rw [hp, hlk] at hlk2
        injection hlk2 with hlk2
        rw [← hlk2]
        exact fun t0 ht0 => ht0
    | nextQuestion pin2 now =>
      rcases hostNextQuestion_reg_eq reg pin2 now with hreg | ⟨g2, hlk2, hreg | hreg⟩
      · rw [show (stepFn reg (Ev.nextQuestion pin2 now)).reg =
            (hostNextQuestion reg pin2 now).reg from rfl, hreg, hlk] at hlg'
        injection hlg' with hlg'
        rw [← hlg'] at ht
        exact ht
      · rw [show (stepFn reg (Ev.nextQuestion pin2 now)).reg =
            (hostNextQuestion reg pin2 now).reg from rfl, hreg] at hlg'
        refine teams_sub_of_lookup_setGame hlk hlg' ?_ t ht
        intro hp
        rw [hp, hlk] at hlk2
        injection hlk2 with hlk2
        rw [← hlk2]
        exact fun t0 ht0 => ht0
      · rw [show (stepFn reg (Ev.nextQuestion pin2 now)).reg =
            (hostNextQuestion reg pin2 now).reg from rfl, hreg] at hlg'
        refine teams_sub_of_lookup_setGame hlk hlg' ?_ t ht
        intro hp
        rw [hp, hlk] at hlk2
        injection hlk2 with hlk2
        rw [← hlk2]
        exact fun t0 ht0 => ht0
    | submit pin2 tid answer now =>
      rcases teamSubmitAnswer_reg_eq reg pin2 tid answer now with
        hreg | ⟨g2, hlk2, hs2, hreg⟩
      · rw [show (stepFn reg (Ev.submit pin2 tid answer now)).reg =
            (teamSubmitAnswer reg pin2 tid answer now).reg from rfl, hreg, hlk] at hlg'
        injection hlg' with hlg'
        rw [← hlg'] at ht
        exact ht
      · rw [show (stepFn reg (Ev.submit pin2 tid answer now)).reg =
            (teamSubmitAnswer reg pin2 tid answer now).reg from rfl, hreg] at hlg'
        refine teams_sub_of_lookup_setGame hlk hlg' ?_ t ht
        intro hp
        exfalso
        rw [hp, hlk] at hlk2
        injection hlk2 with hlk2
        rw [← hlk2] at hs2
        rw [hst] at hs2
        cases hs2
    | reveal pin2 =>
      rcases hostRevealAnswer_reg_eq reg pin2 with hreg | ⟨g2, hlk2, hreg⟩
      · rw [show (stepFn reg (Ev.reveal pin2)).reg =
            (hostRevealAnswer reg pin2).reg from rfl, hreg, hlk] at hlg'
        injection hlg' with hlg'
        rw [← hlg'] at ht
        exact ht
      · rw [show (stepFn reg (Ev.reveal pin2)).reg =
            (hostRevealAnswer reg pin2).reg from rfl, hreg] at hlg'
        refine teams_sub_of_lookup_setGame hlk hlg' ?_ t ht
        intro hp
        rw [hp, hlk] at hlk2
        injection hlk2 with hlk2
        rw [← hlk2]
        exact fun t0 ht0 => ht0
    | getLb pin2 =>
      rw [show (stepFn reg (Ev.getLb pin2)).reg =
          (gameGetLeaderboard reg pin2).reg from rfl,
        gameGetLeaderboard_reg_eq, hlk] at hlg'
      injection hlg' with hlg'
      rw [← hlg'] at ht
      exact ht
    | disconnect sock =>
      rw [show (stepFn reg (Ev.disconnect sock)).reg =
          (onDisconnect reg sock).1 from rfl,
        lookup_onDisconnect hnd hlk,
        if_neg (fun hc => hNotLobby hc.2)] at hlg'
      injection hlg' with hlg'
      rw [← hlg'] at ht
      exact removeMatchingAux_subset ht
    | janitor =>
      rw [show (stepFn reg Ev.janitor).reg = janitorSweep reg from rfl,
        lookup_janitor hnd hlk, if_pos hst] at hlg'
      cases hlg'
  · intro teamName teamId sock
    simp only [stepFn, teamJoin, hlk]
    rw [if_pos hNotLobby]
  · intro teamId answer now
    simp only [stepFn, teamSubmitAnswer, hlk]
    rw [if_pos hNotQuestion]

/-- C4 amended, witnessed on the ended demo game: a late join is
rejected and the registry is unchanged. -/
theorem c4_amended_witness :
    stepFn regDemo7 (Ev.join 1000 "Late" 77 770) =
      replyOnly regDemo7 (Reply.err "Game already started") :=
  (c4_amended regDemo7 1000 (gAt regDemo7 1000) Ev.janitor
    (by decide) (by decide) (by decide)).2.1 "Late" 77 770

/-- C5 counterexample: `start-game` does not require `state == lobby`.
In the run below the game is already in state `question` with cursor 0,
yet a second `start-game` replies success and advances the cursor to 1
instead of setting it to 0. -/
theorem c5_counterexample :
    (lookupGame regC5d 1000).map (fun g => (g.state, g.currentQuestionIndex)) =
      some (GState.question, (0 : Int)) ∧
    (stepFn regC5d (Ev.startGame 1000 200)).reply = some Reply.startOk ∧
    (lookupGame (stepFn regC5d (Ev.startGame 1000 200)).reg 1000).map
      (fun g => (g.state, g.currentQuestionIndex)) =
      some (GState.question, (1 : Int)) := by
  decide

/-- C5 amended: `start-game` requires only that the session exists and
its question list is non-empty (the state is not checked).  With an
empty list it fails `NoQuestions` and changes nothing.  On success it
increments the cursor, transitions to `question`, records the
activation timestamp and broadcasts the answer-stripped current view;
when invoked with cursor `-1` (i.e. from the lobby) the cursor becomes
0 and the broadcast view is question 0 with `questionNumber = 1`. -/
theorem c5_amended :
    ∀ (reg : Registry) (p : Nat) (g : Game) (now : Int),
      lookupGame reg p = some g →
      (g.questions = [] →
        stepFn reg (Ev.startGame p now) =
          replyOnly reg (Reply.err "No questions added")) ∧
      (g.questions ≠ [] →
        (stepFn reg (Ev.startGame p now)).reply = some Reply.startOk ∧
        (stepFn reg (Ev.startGame p now)).threw = false ∧
        lookupGame (stepFn reg (Ev.startGame p now)).reg p =
          some (g.nextQuestion now).1 ∧
        (g.nextQuestion now).1.state = GState.question ∧
        (g.nextQuestion now).1.currentQuestionIndex = g.currentQuestionIndex + 1 ∧
        (g.nextQuestion now).1.questionStartTime = now ∧
        (stepFn reg (Ev.startGame p now)).outs =
          [(Room.game p, Payload.gameStarted (g.nextQuestion now).1.getCurrentQuestion)] ∧
        (g.currentQuestionIndex = -1 →
          (g.nextQuestion now).1.getCurrentQuestion =
            g.questions.head?.map (fun q =>
              { id := q.qid, text := q.text, options := q.options,
                timeLimit := q.timeLimit, category := q.category,
                questionNumber := 1, totalQuestions := g.questions.length }))) := by
  intro reg p g now hlk
  constructor
  · intro hq
    simp only [stepFn, hostStartGame, hlk]
    rw [if_pos (by rw [hq]; rfl)]
  · intro hq
    have hlen : ¬ g.questions.length = 0 :=
      fun hc => hq (List.length_eq_zero.mp hc)
    simp only [stepFn, hostStartGame, hlk]
    rw [if_neg hlen]
    refine ⟨rfl, rfl, lookup_setGame_self reg p (g.nextQuestion now).1,
      rfl, rfl, rfl, rfl, ?_⟩
    intro hcur
    have hc0 : (g.nextQuestion now).1.currentQuestionIndex = 0 := by
      show g.currentQuestionIndex + 1 = 0
      omega
    unfold Game.getCurrentQuestion
    rw [show (g.nextQuestion now).1.questions = g.questions from rfl, hc0, getQ_zero]
    cases hqs : g.questions with
    | nil => exact absurd hqs hq
    | cons q0 rest => simp
  
/-- C5 amended, witnessed on the one-question lobby game of the demo
run: starting it replies success and broadcasts the view of question 0. -/
theorem c5_amended_witness :
    (stepFn regDemo3 (Ev.startGame 1000 0)).reply = some Reply.startOk ∧
    ((gAt regDemo3 1000).nextQuestion 0).1.state = GState.question ∧
    ((gAt regDemo3 1000).nextQuestion 0).1.currentQuestionIndex =
      (gAt regDemo3 1000).currentQuestionIndex + 1 :=
  have h := (c5_amended regDemo3 1000 (gAt regDemo3 1000) 0 (by decide)).2
    (by decide)
  ⟨h.1, h.2.2.2.1, h.2.2.2.2.1⟩

/-- C6 counterexample: the claim asserts that ALL non-reveal outbound
payloads — including all replies — are identical across two runs that
differ only in a question's `correctAnswer`.  The two runs below are
identical up to the erased correct-answer field, but after the team
submits option 0 the `game:get-leaderboard` replies differ: the scores
depend on which option was correct. -/
theorem c6_counterexample :
    ((regC6 0).map (fun e => (e.1, { e.2 with questions := e.2.questions.map eraseCA })) =
      (regC6 1).map (fun e => (e.1, { e.2 with questions := e.2.questions.map eraseCA }))) ∧
    (stepFn (regC6s 0) (Ev.getLb 1000)).reply ≠
      (stepFn (regC6s 1) (Ev.getLb 1000)).reply := by
  decide

/-- C6 amended: the answer-stripped question view — the payload of
`game:started`, `question:new` and the `next-question` reply — never
contains the correct-answer index: it is a function of the questions
with their `correctAnswer` erased, so two games that differ only in
correct-answer fields produce identical views.  (Leaderboard-bearing
payloads such as the `get-leaderboard` reply and the `game:ended`
broadcast DO depend on `correctAnswer` through the scores; only they
and the reveal payloads are excluded.) -/
theorem c6_amended :
    ∀ g g2 : Game,
      g.questions.map eraseCA = g2.questions.map eraseCA →
      g.currentQuestionIndex = g2.currentQuestionIndex →
      g.getCurrentQuestion = g2.getCurrentQuestion := by
  intro g g2 hq hc
  have hlen : g.questions.length = g2.questions.length := by
    have := congrArg List.length hq
    simpa using this
  unfold Game.getCurrentQuestion
  rw [← hc]
  rcases getQ_congr_eraseCA hq g.currentQuestionIndex with ⟨h1, h2⟩ | ⟨q, q2, h1, h2, he⟩
  · rw [h1, h2]
  · rw [h1, h2]
    obtain ⟨e1, e2, e3, e4, e5⟩ := eraseCA_fields he
    show some
        ({ id := q.qid, text := q.text, options := q.options,
           timeLimit := q.timeLimit, category := q.category,
           questionNumber := g.currentQuestionIndex + 1,
           totalQuestions := g.questions.length } : QuestionView) =
      some
        ({ id := q2.qid, text := q2.text, options := q2.options,
           timeLimit := q2.timeLimit, category := q2.category,
           questionNumber := g.currentQuestionIndex + 1,
           totalQuestions := g2.questions.length } : QuestionView)
    rw [e1, e2, e3, e4, e5, hlen]

/-- C6 amended, witnessed on the two started games whose only question
differs in its correct answer: the views coincide. -/
theorem c6_amended_witness :
    (gAt (regC6 0) 1000).getCurrentQuestion =
      (gAt (regC6 1) 1000).getCurrentQuestion :=
  c6_amended (gAt (regC6 0) 1000) (gAt (regC6 1) 1000) (by decide) (by decide)

/-- C7 counterexample: a freshly created lobby session with zero teams
is evicted by the very next disconnect event even though that
disconnect removed no team from it (no `team:left` is emitted at all),
refuting "a lobby session is never evicted by a disconnect that removes
no team from it". -/
theorem c7_counterexample :
    lookupGame regDemo1 1000 = some (newGame 1 1000 11 "Alex") ∧
    (newGame 1 1000 11 "Alex").state = GState.lobby ∧
    (stepFn regDemo1 (Ev.disconnect 99)).outs = [] ∧
    lookupGame (stepFn regDemo1 (Ev.disconnect 99)).reg 1000 = none := by
  decide

/-- C7 amended: a session leaves the registry only through the janitor
sweep finding it `ended`, or through a disconnect event after which it
is in `lobby` with zero teams — whether or not that disconnect removed
any of its teams.  Sessions past `lobby` always survive disconnects,
keeping their remaining teams and scores. -/
theorem c7_amended :
    ∀ (reg : Registry) (p : Nat) (g : Game),
      (reg.map Prod.fst).Nodup →
      lookupGame reg p = some g →
      (∀ sock, lookupGame (stepFn reg (Ev.disconnect sock)).reg p =
         (if (removeMatchingAux sock p 0 g.teams).1.length = 0 ∧
             g.state = GState.lobby
          then none
          else some { g with teams := (removeMatchingAux sock p 0 g.teams).1 })) ∧
      (lookupGame (stepFn reg Ev.janitor).reg p =
         (if g.state = GState.ended then none else some g)) ∧
      (∀ sock, g.state ≠ GState.lobby →
         lookupGame (stepFn reg (Ev.disconnect sock)).reg p =
           some { g with teams := (removeMatchingAux sock p 0 g.teams).1 }) := by
  intro reg p g hnd hlk
  refine ⟨fun sock => lookup_onDisconnect hnd hlk,
          lookup_janitor hnd hlk, ?_⟩
  intro sock hst
  rw [show (stepFn reg (Ev.disconnect sock)).reg = (onDisconnect reg sock).1 from rfl,
    lookup_onDisconnect hnd hlk, if_neg (fun hc => hst hc.2)]

/-- C7 amended, witnessed on the started demo game: its team's socket
disconnects, yet the session survives (state is past lobby) with the
team removed. -/
theorem c7_amended_witness :
    lookupGame (stepFn regDemo4 (Ev.disconnect 50)).reg 1000 =
      some { gAt regDemo4 1000 with
             teams := (removeMatchingAux 50 1000 0 (gAt regDemo4 1000).teams).1 } :=
  (c7_amended regDemo4 1000 (gAt regDemo4 1000) (by decide) (by decide)).2.2
    50 (by decide)

/-- C8: on every reachable registry, a session's cursor is `-1` exactly
when its state is `lobby`; and `nextQuestion` is the only session
operation that changes the cursor — `addTeam`, `removeTeam`,
`addQuestion`, `submitAnswer`, `revealAnswer` and `endGame` all leave
it unchanged. -/
theorem c8_cursor_lobby_iff :
    (∀ reg, Reach reg → ∀ p g, lookupGame reg p = some g →
       (g.currentQuestionIndex = -1 ↔ g.state = GState.lobby)) ∧
    (∀ (g : Game) (teamId : Nat) (nm : String) (sock : Nat),
       (g.addTeam teamId nm sock).currentQuestionIndex = g.currentQuestionIndex) ∧
    (∀ (g : Game) (teamId : Nat),
       (g.removeTeam teamId).currentQuestionIndex = g.currentQuestionIndex) ∧
    (∀ (g : Game) (qid : Nat) (qd : QuestionData),
       (g.addQuestion qid qd).currentQuestionIndex = g.currentQuestionIndex) ∧
    (∀ (g : Game) (teamId : Nat) (answer now : Int),
       (g.submitAnswer teamId answer now).1.currentQuestionIndex =
         g.currentQuestionIndex) ∧
    (∀ g : Game, g.revealAnswer.1.currentQuestionIndex = g.currentQuestionIndex) ∧
    (∀ g : Game, g.endGame.1.currentQuestionIndex = g.currentQuestionIndex) := by
  refine ⟨?_, fun g a b c => rfl, fun g a => rfl, fun g a b => rfl, ?_, ?_, fun g => rfl⟩
  · intro reg hreach p g hlk
    exact ((regInv_reach hreach).2 _ (lookupGame_mem hlk)).2.1
  · intro g teamId answer now
    exact (submitAnswer_fields g teamId answer now).1
  · intro g
    rw [revealAnswer_fst]

/-- C8, witnessed on the started demo game (cursor 0, state
`question`) reached in four steps. -/
theorem c8_witness :
    (gAt regDemo4 1000).currentQuestionIndex = -1 ↔
      (gAt regDemo4 1000).state = GState.lobby :=
  c8_cursor_lobby_iff.1 regDemo4
    (Reach.step (Ev.startGame 1000 0)
      (Reach.step (Ev.join 1000 "Pandas" 5 50)
        (Reach.step (Ev.addQuestion 1000 21 qdDemo)
          (Reach.step (Ev.create 1 11 "Alex" 0) Reach.init rfl)
          rfl)
        rfl)
      rfl)
    1000 (gAt regDemo4 1000) (by decide)

/-- C9 counterexample: `host:reveal-answer` on a lobby session does not
return a `WrongState` error: the handler unconditionally sets the state
to `answer-reveal`, then throws reading the missing question
(`questions[-1]`); the exception is not caught anywhere (no reply is
produced) and the partial mutation survives on the session object. -/
theorem c9_counterexample :
    (lookupGame regC9 1500).map (fun g => g.state) = some GState.lobby ∧
    (stepFn regC9 (Ev.reveal 1500)).threw = true ∧
    (stepFn regC9 (Ev.reveal 1500)).reply = none ∧
    (lookupGame (stepFn regC9 (Ev.reveal 1500)).reg 1500).map (fun g => g.state) =
      some GState.answerReveal := by
  decide

/-- C9 amended: when `reveal-answer` reaches a session whose cursor has
no question under it (as in `lobby`, or in `ended` right after the
cursor ran past the end), the handler first sets the state to
`answer-reveal` and then throws an uncaught `TypeError`: no reply of
any kind is sent, no broadcast happens, and the session is left mutated
(state `answer-reveal`) rather than unchanged. -/
theorem c9_amended :
    ∀ (reg : Registry) (p : Nat) (g : Game),
      lookupGame reg p = some g →
      getQ g.questions g.currentQuestionIndex = none →
      (stepFn reg (Ev.reveal p)).threw = true ∧
      (stepFn reg (Ev.reveal p)).reply = none ∧
      (stepFn reg (Ev.reveal p)).outs = [] ∧
      lookupGame (stepFn reg (Ev.reveal p)).reg p =
        some { g with state := GState.answerReveal } := by
  intro reg p g hlk hq
  have hsnd := revealAnswer_snd_none hq
  simp only [stepFn, hostRevealAnswer, hlk, hsnd]
  refine ⟨trivial, trivial, trivial, ?_⟩
  rw [revealAnswer_fst, lookup_setGame_self]

/-- C9 amended, witnessed on the lobby session of `regC9`. -/
theorem c9_amended_witness :
    (stepFn regC9 (Ev.reveal 1500)).threw = true ∧
    (stepFn regC9 (Ev.reveal 1500)).reply = none ∧
    (stepFn regC9 (Ev.reveal 1500)).outs = [] ∧
    lookupGame (stepFn regC9 (Ev.reveal 1500)).reg 1500 =
      some { newGame 4 1500 44 "Kai" with state := GState.answerReveal } :=
  c9_amended regC9 1500 (newGame 4 1500 44 "Kai") (by decide) (by decide)

/-- C10: a `team:submit-answer` in state `question` whose team id is
unknown, or whose cursor is outside the question list, replies the
failure `Invalid team or question` and the call is atomic: the
registry — hence every score, answer log and session field — is exactly
what it was, and nothing is broadcast. -/
theorem c10_submit_atomic_failure :
    ∀ (reg : Registry) (p teamId : Nat) (answer now : Int) (g : Game),
      lookupGame reg p = some g →
      g.state = GState.question →
      (g.teams.find? (fun t => t.tid = teamId) = none ∨
        getQ g.questions g.currentQuestionIndex = none) →
      stepFn reg (Ev.submit p teamId answer now) =
        replyOnly reg (Reply.err "Invalid team or question") := by
  intro reg p teamId answer now g hlk hst hfail
  have hs := @submitAnswer_failure g teamId answer now hfail
  simp only [stepFn, teamSubmitAnswer, hlk]
  rw [if_neg (fun hc => hc hst)]
  simp only [hs]

/-- C10, witnessed on the started demo game with an unknown team id. -/
theorem c10_witness :
    stepFn regDemo4 (Ev.submit 1000 999 1 3000) =
      replyOnly regDemo4 (Reply.err "Invalid team or question") :=
  c10_submit_atomic_failure regDemo4 1000 999 1 3000 (gAt regDemo4 1000)
    (by decide) (by decide) (Or.inl (by decide))
